import Mathlib

/-!
Shallow embedding of the `errors` annotation library (src/errors.go) and
proofs of the specified properties.

Error values are modelled by the inductive type `Errs.GoError`, one
constructor per concrete error shape the package builds:

* `base msg` — a leaf error carrying only a message: the result of the
  standard-library `errors.New` / `fmt.Errorf` (no `Unwrap`, no
  `StackTrace` method), and also any caller-supplied plain error.
* `withStack inner st` — the `withStack` struct (errors.go:150-158): embeds
  an error and a captured stack; `Error()` delegates to the inner error,
  `StackTrace()` returns the stack, `Unwrap`/`Cause` return the inner error.
* `formatted inner` — the `formatted` struct (errors.go:180-208): a thin
  wrapper adding the `Format` method; `Error()`, `Unwrap`, `Cause` delegate.
* `wrapError msg inner` — the value produced by
  `fmt.Errorf("%s: %w", msg, inner)`: `Error()` is `msg ++ ": " ++ inner.Error()`
  and `Unwrap` returns `inner`.

A nilable Go `error` is `Option GoError`; `none` is the nil interface value.

Stack traces are sequences of opaque call sites, modelled as `List Nat`.
The repository's `stack.go` (defining `callers` and the `stack` type) is not
under src/, so stack capture is modelled from the spec: `callers` receives
the active call stack at the call point as an explicit parameter `ctx` and
drops the innermost `skip` frames.
-/

namespace Errs

/-- Model of a concrete error value built or consumed by the package. -/
inductive GoError where
  /-- A plain leaf error: message only, no `Unwrap`, no `StackTrace`. -/
  | base (msg : String)
  /-- The `withStack` struct: inner error plus a captured stack trace. -/
  | withStack (inner : GoError) (st : List Nat)
  /-- The `formatted` struct: pass-through wrapper adding `Format`. -/
  | formatted (inner : GoError)
  /-- The value of `fmt.Errorf("%s: %w", msg, inner)`. -/
  | wrapError (msg : String) (inner : GoError)
  deriving DecidableEq, Repr

/-- Modelled from the spec: `stack.go` (the `callers` function and `stack`
type) is absent from src/. Per spec §4.1, `captureStack(skip)` returns the
ordered active call sites omitting the innermost `skip` frames. The active
call stack at the call point is passed explicitly as `ctx`. -/
def callers (ctx : List Nat) (skip : Nat) : List Nat :=
  ctx.drop skip

/-- `Error()` of each node: `withStack` and `formatted` delegate to the
embedded error; `fmt.Errorf("%s: %w", m, inner)` renders `m: <inner>`. -/
def errMsg : GoError → String
  | .base m => m
  | .withStack i _ => errMsg i
  | .formatted i => errMsg i
  | .wrapError m i => m ++ ": " ++ errMsg i

/-- Whether the node's own type has a `StackTrace() StackTrace` method:
only the `withStack` struct does (`formatted` and `*fmt.wrapError` only
promote `Error()` and `Unwrap`). -/
def hasST : GoError → Bool
  | .withStack _ _ => true
  | _ => false

/-- Modelled from the spec: `go113.go` (the package's `Unwrap`, an alias of
the standard `errors.Unwrap`) is absent from src/. One unwrap step:
`withStack`, `formatted` and `fmt.Errorf`-with-`%w` values expose their
inner error; a plain leaf has no `Unwrap`. -/
def Unwrap : GoError → Option GoError
  | .base _ => none
  | .withStack i _ => some i
  | .formatted i => some i
  | .wrapError _ i => some i

/-- Modelled from the spec: `go113.go` (the package's `As`, an alias of the
standard `errors.As`) is absent from src/. `As(err, &st)` with the
`stackTracer` interface target succeeds at the first node of `err`'s unwrap
chain, walked outward-to-inward, whose type has a `StackTrace()` method,
and assigns that node; it fails if no node in the chain has one
(spec §4.2/§4.4: "walk err's cause chain; if any node already exposes a
StackTrace ..."). -/
def asStackTracer : GoError → Option GoError
  | .base _ => none
  | .withStack i st => some (.withStack i st)
  | .formatted i => asStackTracer i
  | .wrapError _ i => asStackTracer i

/-- The unwrap chain of an error, outermost node first (finite and acyclic
by construction, as the spec's §3 invariant states). -/
def chainList : GoError → List GoError
  | .base m => [.base m]
  | .withStack i st => .withStack i st :: chainList i
  | .formatted i => .formatted i :: chainList i
  | .wrapError m i => .wrapError m i :: chainList i

/-- The terminal leaf of the unwrap chain. -/
def chainLeaf : GoError → GoError
  | .base m => .base m
  | .withStack i _ => chainLeaf i
  | .formatted i => chainLeaf i
  | .wrapError _ i => chainLeaf i

/-- The stack trace carried by an error: the `StackTrace()` of the first
node in its unwrap chain that has one, if any. -/
def stackTraceOf : GoError → Option (List Nat)
  | .base _ => none
  | .withStack _ st => some st
  | .formatted i => stackTraceOf i
  | .wrapError _ i => stackTraceOf i

/-- `ensureStack` (errors.go:133-148) on a present (non-nil) error:
if `As(err, &st)` finds a stack-bearing node in the chain, return
`formatted{err}` (no capture); otherwise wrap in a fresh `withStack`
carrying `callers(1)` and then in `formatted`. -/
def ensureStackE (ctx : List Nat) (e : GoError) : GoError :=
  if (asStackTracer e).isSome then .formatted e
  else .formatted (.withStack e (callers ctx 1))

/-- `ensureStack` (errors.go:133-148): nil in, nil out; otherwise
`ensureStackE`. `ctx` is the active call stack at the call point. -/
def ensureStack (ctx : List Nat) : Option GoError → Option GoError
  | none => none
  | some e => some (ensureStackE ctx e)

/-- `EnsureStack` (errors.go:129-131): delegates to `ensureStack`. -/
def EnsureStack (ctx : List Nat) (err : Option GoError) : Option GoError :=
  ensureStack ctx err

/-- `WithStack` (errors.go:121-123), the deprecated alias of `EnsureStack`. -/
def WithStack (ctx : List Nat) (err : Option GoError) : Option GoError :=
  ensureStack ctx err

/-- `New` (errors.go:103-108): a fresh leaf from `errors.New(message)`,
wrapped in `withStack` with `callers(0)` and in `formatted`. -/
def New (ctx : List Nat) (message : String) : GoError :=
  .formatted (.withStack (.base message) (callers ctx 0))

/-- `Errorf` (errors.go:113-118): same as `New`, the message being the
output of the external `fmt.Errorf` template substitution, passed here
already rendered. -/
def Errorf (ctx : List Nat) (rendered : String) : GoError :=
  .formatted (.withStack (.base rendered) (callers ctx 0))

/-- `Wrap` (errors.go:163-168): nil in, nil out; otherwise
`formatted{fmt.Errorf("%s: %w", message, ensureStack(err))}`. -/
def Wrap (ctx : List Nat) (err : Option GoError) (message : String) : Option GoError :=
  match err with
  | none => none
  | some e => some (.formatted (.wrapError message (ensureStackE ctx e)))

/-- `Wrapf` (errors.go:173-178): as `Wrap`, the message being the output of
the external `fmt.Sprintf`, passed here already rendered. -/
def Wrapf (ctx : List Nat) (err : Option GoError) (rendered : String) : Option GoError :=
  match err with
  | none => none
  | some e => some (.formatted (.wrapError rendered (ensureStackE ctx e)))

/-- `WithMessage` (errors.go:212-217): nil in, nil out; otherwise the bare
`fmt.Errorf("%s: %w", message, err)` value (no `formatted`, no stack). -/
def WithMessage (err : Option GoError) (message : String) : Option GoError :=
  match err with
  | none => none
  | some e => some (.wrapError message e)

/-- `WithMessagef` (errors.go:221-226): as `WithMessage`, the message being
the output of the external `fmt.Sprintf`, passed here already rendered. -/
def WithMessagef (err : Option GoError) (rendered : String) : Option GoError :=
  match err with
  | none => none
  | some e => some (.wrapError rendered e)

/-- The loop of `Cause` (errors.go:230-245) on a present error: if
`As(err, &st)` succeeds return the found node, else take one `Unwrap` step,
returning the current node at a leaf. -/
def causeE (e : GoError) : GoError :=
  if h : (asStackTracer e).isSome then (asStackTracer e).get h
  else
    match e with
    | .base m => .base m
    | .withStack i _ => causeE i
    | .formatted i => causeE i
    | .wrapError _ i => causeE i

/-- `Cause` (errors.go:230-245). On the nil interface value `As` fails and
`Unwrap` yields nil, so the loop returns its nil argument unchanged. -/
def Cause : Option GoError → Option GoError
  | none => none
  | some e => some (causeE e)

/-- Short-format output (`%s`, and `%v` without `+`) of `formatted.Format`
(errors.go:203-204): it writes `f.error.Error()`, which equals the node's
own `Error()` since `formatted` delegates `Error()` to its inner error. -/
def formatShort (e : GoError) : String :=
  errMsg e

/-- Go quoting of one character, per `strconv.Quote` as invoked by
`fmt.Fprintf("%q", ...)` (errors.go:206), modelled for ASCII: quote and
backslash get a backslash escape, the named control characters get their
mnemonic escapes, other control bytes get `\xNN`, printable characters
stand for themselves. -/
def quoteChar (c : Char) : String :=
  if c = '"' then "\\\""
  else if c = '\\' then "\\\\"
  else if c = '\n' then "\\n"
  else if c = '\t' then "\\t"
  else if c = '\r' then "\\r"
  else if c.toNat = 7 then "\\a"
  else if c.toNat = 8 then "\\b"
  else if c.toNat = 11 then "\\v"
  else if c.toNat = 12 then "\\f"
  else if c.toNat < 32 ∨ c.toNat = 127 then
    "\\x" ++ String.mk [Nat.digitChar (c.toNat / 16), Nat.digitChar (c.toNat % 16)]
  else String.singleton c

/-- Go quoting of a string (`%q`): the concatenated per-character escapes
surrounded by double quotes. -/
def goQuote (s : String) : String :=
  "\"" ++ String.join (s.toList.map quoteChar) ++ "\""

/-- Quoted-verb output of `formatted.Format` (errors.go:205-206):
`fmt.Fprintf(s, "%q", f.error.Error())`. The `fmt` default for package
errors that are not `formatted` (the bare `WithMessage` values) is the
same: the `Error()` text, Go-quoted. -/
def formatQ (e : GoError) : String :=
  goQuote (errMsg e)

/-- The claim's reading of the quoted verb, from the spec's words: the
short-form text with only the internal quotation marks escaped,
surrounded by quotation marks. -/
def escapeQuotesOnly (s : String) : String :=
  String.join (s.toList.map fun c => if c = '"' then "\\\"" else String.singleton c)

/-- One annotation operation, for quantifying over arbitrary finite
sequences of annotations; the `ctx` argument of the stack-forcing
operations is the call stack active when that operation runs. -/
inductive AnnOp where
  | wrap (ctx : List Nat) (msg : String)
  | wrapf (ctx : List Nat) (rendered : String)
  | withMessage (msg : String)
  | withMessagef (rendered : String)
  | ensureStack (ctx : List Nat)
  deriving DecidableEq, Repr

/-- Apply one annotation operation. -/
def applyOp (err : Option GoError) : AnnOp → Option GoError
  | .wrap ctx m => Wrap ctx err m
  | .wrapf ctx m => Wrapf ctx err m
  | .withMessage m => WithMessage err m
  | .withMessagef m => WithMessagef err m
  | .ensureStack ctx => EnsureStack ctx err

/-- Apply a finite sequence of annotation operations, innermost first. -/
def applyOps (ops : List AnnOp) (err : Option GoError) : Option GoError :=
  ops.foldl applyOp err

/-! ### Helper lemmas -/

/-- `ensureStack` never changes the message: both of its result shapes
delegate `Error()` to the argument. -/
theorem errMsg_ensureStackE (ctx : List Nat) (e : GoError) :
    errMsg (ensureStackE ctx e) = errMsg e := by
  unfold ensureStackE
  split <;> simp [errMsg]

/-- The result of `ensureStack` always carries a stack-bearing node. -/
theorem asStackTracer_ensureStackE_isSome (ctx : List Nat) (e : GoError) :
    (asStackTracer (ensureStackE ctx e)).isSome := by
  unfold ensureStackE
  split
  · next h => simpa [asStackTracer] using h
  · simp [asStackTracer]

/-- `As` with the `stackTracer` target finds exactly the first node of the
unwrap chain whose type has a `StackTrace()` method. -/
theorem asStackTracer_eq_find (e : GoError) :
    asStackTracer e = (chainList e).find? hasST := by
  induction e with
  | base m => simp [asStackTracer, chainList, List.find?, hasST]
  | withStack i st ih => simp [asStackTracer, chainList, List.find?, hasST]
  | formatted i ih => simpa [asStackTracer, chainList, List.find?, hasST] using ih
  | wrapError m i ih => simpa [asStackTracer, chainList, List.find?, hasST] using ih

/-- Any node `As` returns is a `withStack` node. -/
theorem asStackTracer_shape {e st : GoError} (h : asStackTracer e = some st) :
    ∃ i s, st = GoError.withStack i s := by
  induction e with
  | base m => simp [asStackTracer] at h
  | withStack i s ih =>
    refine ⟨i, s, ?_⟩
    simpa [asStackTracer] using h.symm
  | formatted i ih => exact ih (by simpa [asStackTracer] using h)
  | wrapError m i ih => exact ih (by simpa [asStackTracer] using h)

/-- The terminal node of any chain is a plain leaf. -/
theorem chainLeaf_shape (e : GoError) : ∃ m, chainLeaf e = GoError.base m := by
  induction e with
  | base m => exact ⟨m, rfl⟩
  | withStack i s ih => simpa [chainLeaf] using ih
  | formatted i ih => simpa [chainLeaf] using ih
  | wrapError m i ih => simpa [chainLeaf] using ih

/-- When `As` succeeds, the `Cause` loop returns the node it found. -/
theorem causeE_of_some {e st : GoError} (h : asStackTracer e = some st) :
    causeE e = st := by
  unfold causeE
  simp [h]

/-- When no node of the chain bears a stack, the `Cause` loop walks down to
the terminal leaf. -/
theorem causeE_of_none {e : GoError} (h : asStackTracer e = none) :
    causeE e = chainLeaf e := by
  induction e with
  | base m => simp [causeE, chainLeaf, asStackTracer]
  | withStack i s ih => simp [asStackTracer] at h
  | formatted i ih =>
    have h' : asStackTracer i = none := by simpa [asStackTracer] using h
    unfold causeE
    simp only [h]
    simpa [chainLeaf] using ih h'
  | wrapError m i ih =>
    have h' : asStackTracer i = none := by simpa [asStackTracer] using h
    unfold causeE
    simp only [h]
    simpa [chainLeaf] using ih h'

/-- A stack-bearing node is a fixed point of the `Cause` loop. -/
theorem causeE_withStack (i : GoError) (s : List Nat) :
    causeE (GoError.withStack i s) = GoError.withStack i s := by
  unfold causeE
  simp [asStackTracer]

/-- The `Cause` loop is idempotent on present errors. -/
theorem causeE_idem (e : GoError) : causeE (causeE e) = causeE e := by
  cases h : asStackTracer e with
  | some st =>
    obtain ⟨i, s, rfl⟩ := asStackTracer_shape h
    rw [causeE_of_some h, causeE_withStack]
  | none =>
    rw [causeE_of_none h]
    obtain ⟨m, hm⟩ := chainLeaf_shape e
    rw [hm]
    simp [causeE, asStackTracer]

/-- Every node of an error's chain stays in the chain of its
`ensureStack`. -/
theorem chainList_ensureStackE_mem (ctx : List Nat) (e x : GoError)
    (hx : x ∈ chainList e) : x ∈ chainList (ensureStackE ctx e) := by
  unfold ensureStackE
  split <;> simp [chainList, hx]

/-- An error is the head of its own chain. -/
theorem self_mem_chainList (e : GoError) : e ∈ chainList e := by
  cases e <;> simp [chainList]

/-- One annotation step keeps every chain node of a present error, and
returns a present error. -/
theorem applyOp_chain (op : AnnOp) (r : GoError) :
    ∃ s, applyOp (some r) op = some s ∧ ∀ x ∈ chainList r, x ∈ chainList s := by
  cases op with
  | wrap ctx m =>
    refine ⟨_, rfl, fun x hx => ?_⟩
    have hmem := chainList_ensureStackE_mem ctx r x hx
    simp only [Wrap, applyOp, chainList, List.mem_cons]
    tauto
  | wrapf ctx m =>
    refine ⟨_, rfl, fun x hx => ?_⟩
    have hmem := chainList_ensureStackE_mem ctx r x hx
    simp only [Wrapf, applyOp, chainList, List.mem_cons]
    tauto
  | withMessage m => exact ⟨_, rfl, fun x hx => by simp [chainList, hx]⟩
  | withMessagef m => exact ⟨_, rfl, fun x hx => by simp [chainList, hx]⟩
  | ensureStack ctx =>
    exact ⟨_, rfl, fun x hx => chainList_ensureStackE_mem ctx r x hx⟩

/-- A sequence of annotation steps keeps every chain node of a present
error, and returns a present error. -/
theorem applyOps_chain (ops : List AnnOp) (r : GoError) :
    ∃ s, applyOps ops (some r) = some s ∧ ∀ x ∈ chainList r, x ∈ chainList s := by
  induction ops generalizing r with
  | nil => exact ⟨r, rfl, fun x hx => hx⟩
  | cons op ops ih =>
    obtain ⟨r1, h1, hsub1⟩ := applyOp_chain op r
    obtain ⟨s, hs, hsub2⟩ := ih r1
    refine ⟨s, ?_, fun x hx => hsub2 x (hsub1 x hx)⟩
    simpa [applyOps, List.foldl_cons, h1] using hs

/-- When the chain already bears a stack, `ensureStack` is the pass-through
`formatted` wrapper and captures nothing. -/
theorem ensureStackE_pass {e : GoError} (ctx : List Nat)
    (h : (asStackTracer e).isSome) : ensureStackE ctx e = GoError.formatted e := by
  unfold ensureStackE
  simp [h]

/-- `stackTraceOf` ignores the two message-only wrappers. -/
theorem stackTraceOf_formatted (i : GoError) :
    stackTraceOf (GoError.formatted i) = stackTraceOf i := rfl

/-! ### Claims -/

/-- C3: for every error `e` and messages `m1`, `m2`, the short-format text
of `Wrap (Wrap e m1) m2` is `m2 ++ ": " ++ m1 ++ ": " ++` the text of `e`:
each wrap joins its message and the cause's message with colon-space,
outermost first. -/
theorem wrap_wrap_short_text (ctx1 ctx2 : List Nat) (e : GoError) (m1 m2 : String) :
    (Wrap ctx2 (Wrap ctx1 (some e) m1) m2).map formatShort =
      some (m2 ++ ": " ++ m1 ++ ": " ++ errMsg e) := by
  simp [Wrap, formatShort, errMsg, errMsg_ensureStackE, String.append_assoc]

/-- C4: every annotation operation maps the nil error to the nil error. -/
theorem nil_in_nil_out (ctx : List Nat) (m : String) :
    Wrap ctx none m = none ∧ Wrapf ctx none m = none ∧
      WithMessage none m = none ∧ WithMessagef none m = none ∧
      EnsureStack ctx none = none :=
  ⟨rfl, rfl, rfl, rfl, rfl⟩

/-- C9: `Cause` of the nil error is nil; the implementation is total on nil
input even though the spec defines cause retrieval only for present
errors. -/
theorem cause_nil : Cause none = none := rfl

/-- C5: on a present error, `Cause` returns the first node of the unwrap
chain, walked outward-to-inward, that exposes a `StackTrace`; when no node
does, it returns the terminal leaf unchanged — in particular an error
built purely by repeated `WithMessage` over a plain leaf yields that
leaf. -/
theorem cause_first_stack_or_leaf (e : GoError) :
    Cause (some e) = some (((chainList e).find? hasST).getD (chainLeaf e)) ∧
      ∀ (ms : List String) (m : String),
        Cause (ms.foldr (fun msg acc => WithMessage acc msg)
            (some (GoError.base m))) = some (GoError.base m) := by
  constructor
  · rw [← asStackTracer_eq_find]
    cases h : asStackTracer e with
    | some st => simp [Cause, causeE_of_some h]
    | none => simp [Cause, causeE_of_none h]
  · intro ms m
    have tower : ∃ p, ms.foldr (fun msg acc => WithMessage acc msg)
        (some (GoError.base m)) = some p ∧ asStackTracer p = none ∧
        chainLeaf p = GoError.base m := by
      induction ms with
      | nil => exact ⟨.base m, rfl, rfl, rfl⟩
      | cons msg ms ih =>
        obtain ⟨p, hp, ha, hl⟩ := ih
        exact ⟨.wrapError msg p, by rw [List.foldr_cons, hp]; rfl,
          by simpa [asStackTracer] using ha, by simpa [chainLeaf] using hl⟩
    obtain ⟨p, hp, ha, hl⟩ := tower
    rw [hp]
    simp [Cause, causeE_of_none ha, hl]

/-- C10: `Cause` is idempotent: its result is either a stack-bearing node,
on which `As` immediately succeeds again, or a leaf, which `Cause` returns
unchanged. -/
theorem cause_idem (err : Option GoError) : Cause (Cause err) = Cause err := by
  cases err with
  | none => rfl
  | some e => simpa [Cause] using congrArg some (causeE_idem e)

/-- C7: `Cause (New m)` is a node whose message is `m` and whose captured
stack is the non-empty call-site sequence at the point of the `New`
call. -/
theorem cause_new (ctx : List Nat) (m : String) (h : ctx ≠ []) :
    ∃ c, Cause (some (New ctx m)) = some c ∧ errMsg c = m ∧
      ∃ s, stackTraceOf c = some s ∧ s ≠ [] := by
  refine ⟨.withStack (.base m) (callers ctx 0), ?_, rfl, ctx, ?_, h⟩
  · simp [Cause, New]
    exact causeE_of_some (by simp [asStackTracer])
  · simp [stackTraceOf, callers]

/-- Witness for C7 at `ctx = [1, 2]`, `m = "oops"`. -/
theorem cause_new_witness :
    ∃ c, Cause (some (New [1, 2] "oops")) = some c ∧ errMsg c = "oops" ∧
      ∃ s, stackTraceOf c = some s ∧ s ≠ [] :=
  cause_new [1, 2] "oops" (by decide)

/-- C6: when the chain of `e` already exposes a `StackTrace`, `EnsureStack`
returns the pass-through `formatted` wrapper around `e` unchanged — format
capability only — and the carried stack trace is exactly the one `e`
already had (no new capture). -/
theorem ensure_stack_passthrough (ctx : List Nat) (e : GoError)
    (h : (asStackTracer e).isSome) :
    EnsureStack ctx (some e) = some (GoError.formatted e) ∧
      (EnsureStack ctx (some e)).bind stackTraceOf = stackTraceOf e := by
  have hp := ensureStackE_pass ctx h
  constructor
  · simp [EnsureStack, ensureStack, hp]
  · simp [EnsureStack, ensureStack, hp, stackTraceOf_formatted]

/-- Witness for C6 at `e = withStack (base "x") [2]`. -/
theorem ensure_stack_passthrough_witness :
    EnsureStack [1] (some (GoError.withStack (.base "x") [2])) =
        some (GoError.formatted (GoError.withStack (.base "x") [2])) ∧
      (EnsureStack [1] (some (GoError.withStack (.base "x") [2]))).bind
          stackTraceOf = stackTraceOf (GoError.withStack (.base "x") [2]) :=
  ensure_stack_passthrough [1] (GoError.withStack (.base "x") [2]) (by decide)

/-- C2: `EnsureStack (EnsureStack e)` carries the identical call-site
sequence as `EnsureStack e` — no second capture; more generally, once the
chain bears a stack, a later `EnsureStack` or `Wrap` reuses it. -/
theorem ensure_stack_no_double_capture (ctx ctx2 : List Nat) (e : GoError) :
    (EnsureStack ctx2 (EnsureStack ctx (some e))).bind stackTraceOf =
        (EnsureStack ctx (some e)).bind stackTraceOf ∧
      ((asStackTracer e).isSome → ∀ m,
        (EnsureStack ctx2 (some e)).bind stackTraceOf = stackTraceOf e ∧
          (Wrap ctx2 (some e) m).bind stackTraceOf = stackTraceOf e) := by
  constructor
  · have h1 := asStackTracer_ensureStackE_isSome ctx e
    simp [EnsureStack, ensureStack, ensureStackE_pass ctx2 h1,
      stackTraceOf_formatted]
  · intro h m
    have hp := ensureStackE_pass ctx2 h
    exact ⟨by simp [EnsureStack, ensureStack, hp, stackTraceOf_formatted],
      by simp [Wrap, hp, stackTraceOf, stackTraceOf_formatted]⟩

/-- Witness for C2 at `e = withStack (base "x") [9]`, `m = "w"`. -/
theorem ensure_stack_no_double_capture_witness :
    (EnsureStack [3, 4] (EnsureStack [1, 2]
          (some (GoError.withStack (.base "x") [9])))).bind stackTraceOf =
        (EnsureStack [1, 2] (some (GoError.withStack (.base "x") [9]))).bind
          stackTraceOf ∧
      (Wrap [3, 4] (some (GoError.withStack (.base "x") [9])) "w").bind
          stackTraceOf = stackTraceOf (GoError.withStack (.base "x") [9]) :=
  ⟨(ensure_stack_no_double_capture [1, 2] [3, 4]
      (GoError.withStack (.base "x") [9])).1,
    ((ensure_stack_no_double_capture [1, 2] [3, 4]
      (GoError.withStack (.base "x") [9])).2 (by decide) "w").2⟩

/-- C1 counterexample: for `e = base "boom"` and the operation sequence
`withMessage "m1"` then `wrap "m2"`, `Cause` of the result is the
stack-bearing node `withStack (wrapError "m1" (base "boom")) [7]`: neither
its identity nor its message (`"m1: boom"`) is that of `e`. -/
theorem cause_not_original :
    Cause (Wrap [5, 7] (WithMessage (some (GoError.base "boom")) "m1") "m2") ≠
        some (GoError.base "boom") ∧
      (Cause (Wrap [5, 7] (WithMessage (some (GoError.base "boom")) "m1")
          "m2")).map errMsg ≠ some "boom" := by
  decide

/-- C1 (amended): for every error `e` and every finite sequence of
annotation operations applied on top of it, the result is present and `e`
itself remains, unchanged, a node of the result's unwrap chain — the
library never masks, swallows, or alters the caller's original failure
value, though recovering it may take unwrap steps beyond the node `Cause`
returns. -/
theorem annotation_preserves_original (e : GoError) (ops : List AnnOp) :
    ∃ r, applyOps ops (some e) = some r ∧ e ∈ chainList r := by
  obtain ⟨r, hr, hsub⟩ := applyOps_chain ops e
  exact ⟨r, hr, hsub e (self_mem_chainList e)⟩

/-- On a character that is a double quote, or printable ASCII other than
backslash, Go quoting agrees with quote-only escaping. -/
theorem quoteChar_plain {c : Char} (h2 : 32 ≤ c.toNat) (h3 : c.toNat ≠ 92)
    (h4 : c.toNat ≠ 127) (h5 : c ≠ '"') :
    quoteChar c = String.singleton c := by
  unfold quoteChar
  rw [if_neg h5]
  rw [if_neg (fun hc => h3 (by rw [hc]; rfl))]
  rw [if_neg (fun hc => by rw [hc] at h2; exact absurd h2 (by decide))]
  rw [if_neg (fun hc => by rw [hc] at h2; exact absurd h2 (by decide))]
  rw [if_neg (fun hc => by rw [hc] at h2; exact absurd h2 (by decide))]
  rw [if_neg (by omega), if_neg (by omega), if_neg (by omega),
    if_neg (by omega), if_neg (by omega)]

/-- C8 counterexample: at the error `New "a\b"` (one backslash in the
message), the quoted-verb output is `"a\\b"` — the backslash is escaped
too — not the message text with only its quotation marks escaped. -/
theorem quoted_not_quotes_only :
    formatQ (New [3] "a\\b") ≠
      "\"" ++ escapeQuotesOnly (errMsg (New [3] "a\\b")) ++ "\"" := by
  decide

/-- C8 (amended): for every error whose short-form text consists of double
quotes and printable ASCII other than backslash, the quoted verb emits
exactly that text surrounded by quotation marks with the internal
quotation marks escaped; messages containing backslashes or control
characters additionally get those characters escaped per Go quoting. -/
theorem quoted_verb_escapes_quotes (e : GoError)
    (h : ∀ c ∈ (errMsg e).toList,
      c = '"' ∨ (32 ≤ c.toNat ∧ c.toNat ≠ 92 ∧ c.toNat ≠ 127)) :
    formatQ e = "\"" ++ escapeQuotesOnly (errMsg e) ++ "\"" := by
  unfold formatQ goQuote escapeQuotesOnly
  refine congrArg (fun t => "\"" ++ t ++ "\"") ?_
  refine congrArg String.join (List.map_congr_left fun c hc => ?_)
  by_cases h5 : c = '"'
  · subst h5
    decide
  · rcases h c hc with h1 | ⟨h2, h3, h4⟩
    · exact absurd h1 h5
    · rw [quoteChar_plain h2 h3 h4 h5, if_neg h5]

/-- Witness for the amended C8 at the error `New "say \"hi\""`. -/
theorem quoted_verb_escapes_quotes_witness :
    formatQ (New [1] "say \"hi\"") =
      "\"" ++ escapeQuotesOnly (errMsg (New [1] "say \"hi\"")) ++ "\"" :=
  quoted_verb_escapes_quotes (New [1] "say \"hi\"") (by decide)

end Errs
